import Mathlib

/-!
# dss-review: a verification development of `script.js`

A shallow embedding of the page script of the lecture-review site: the escaping
utility, the output renderer, the handler of the execution endpoint's response,
the quiz engine, the tab navigation and the lecture search.

JavaScript strings are embedded as `String` (sequences of Unicode scalar values),
`classList` as a list of class names, and the mutable objects of the script as
explicit state that each function takes and returns. The elements of the page are
records of the properties that the script reads and writes; an element that the
script looks up by a value (an identifier, a `data-question`, a radio value) may
be missing, and the function then ends by a `TypeError`, which the embedding
records next to the state reached so far.
-/

namespace DssReview

/-! ## Strings -/

/-- ECMAScript `WhiteSpace` and `LineTerminator` code points, the characters that
`String.prototype.trim` strips. -/
def isTrimChar (c : Char) : Bool :=
  let n := c.toNat
  n = 0x09 || n = 0x0A || n = 0x0B || n = 0x0C || n = 0x0D || n = 0x20 || n = 0xA0
    || n = 0x1680 || (0x2000 ≤ n && n ≤ 0x200A) || n = 0x2028 || n = 0x2029
    || n = 0x202F || n = 0x205F || n = 0x3000 || n = 0xFEFF

/-- `String.prototype.trim` over the characters of a string. -/
def trimChars (cs : List Char) : List Char :=
  ((cs.dropWhile isTrimChar).reverse.dropWhile isTrimChar).reverse

/-- `text.trim()`. -/
def trim (text : String) : String :=
  String.mk (trimChars text.data)

/-- `text.split('\n')` over the characters of a string: the pieces between line
feeds, one more piece than there are line feeds. -/
def splitNewlineChars : List Char → List (List Char)
  | [] => [[]]
  | c :: cs =>
    if c = '\n' then [] :: splitNewlineChars cs
    else
      match splitNewlineChars cs with
      | [] => [[c]]
      | l :: ls => (c :: l) :: ls

/-- `text.split('\n')`. -/
def splitNewline (text : String) : List String :=
  (splitNewlineChars text.data).map String.mk

/-! ## Escaping utility -/

/-- The serialisation of one character of a text node, as `innerHTML` produces it
(HTML fragment serialisation, not in attribute mode). -/
def escapeChar (c : Char) : List Char :=
  if c = '&' then ['&', 'a', 'm', 'p', ';']
  else if c = Char.ofNat 0xA0 then ['&', 'n', 'b', 's', 'p', ';']
  else if c = '<' then ['&', 'l', 't', ';']
  else if c = '>' then ['&', 'g', 't', ';']
  else [c]

/-- The serialisation of the text node that `div.textContent = text` creates. -/
def escapeChars : List Char → List Char
  | [] => []
  | c :: cs => escapeChar c ++ escapeChars cs

/-- `escapeHtml(text)`: the text is stored as the content of a fresh `div` and the
markup of the `div` is read back. -/
def escapeHtml (text : String) : String :=
  String.mk (escapeChars text.data)

/-- Decoding of the character references that a text-node serialisation contains:
`&amp;`, `&nbsp;`, `&lt;` and `&gt;`. Every other character stands for itself. -/
def decodeEntities : List Char → List Char
  | '&' :: 'a' :: 'm' :: 'p' :: ';' :: cs => '&' :: decodeEntities cs
  | '&' :: 'n' :: 'b' :: 's' :: 'p' :: ';' :: cs => Char.ofNat 0xA0 :: decodeEntities cs
  | '&' :: 'l' :: 't' :: ';' :: cs => '<' :: decodeEntities cs
  | '&' :: 'g' :: 't' :: ';' :: cs => '>' :: decodeEntities cs
  | c :: cs => c :: decodeEntities cs
  | [] => []

/-- The text that markup made of text and character references stands for: the
markup with its character references decoded. -/
def renderedText (html : String) : String :=
  String.mk (decodeEntities html.data)

/-- The four character references a text-node serialisation can contain. -/
def entityTails : List (List Char) :=
  [['a', 'm', 'p', ';'], ['n', 'b', 's', 'p', ';'], ['l', 't', ';'], ['g', 't', ';']]

/-! ## Output renderer -/

/-- The row that the timer callback of `displayCodeOutput` builds. -/
structure MsgElement where
  className : String
  color : String
  marginTop : String
  borderTop : String
  paddingTop : String
  textContent : String
deriving DecidableEq, Repr

/-- An output region `output-<id>`: the markup last assigned to it, the nodes
appended after that markup, and the nodes that timers still waiting will append. -/
structure OutputRegion where
  innerHTML : String
  appended : List MsgElement
  pending : List MsgElement
deriving DecidableEq, Repr

/-- The markup of one row, the body of the `lines.forEach` callback. -/
def outputLine (success : Bool) (line : String) : String :=
  let color := if success then "#cbd5e1" else "#ef4444"
  let icon := if success then "" else "âœ— "
  "<div class=\"output-line\" style=\"color: " ++ color ++ ";\">" ++ icon
    ++ escapeHtml line ++ "</div>"

/-- The confirmation row `successMsg`. -/
def successMsg : MsgElement :=
  { className := "output-line"
    color := "#10b981"
    marginTop := "10px"
    borderTop := "1px solid #334155"
    paddingTop := "10px"
    textContent := "âœ“ Program executed successfully" }

/-- `displayCodeOutput(outputElement, text, success)`: the region gets one row per
line of the text, and on success a timer is started that appends the
confirmation row. -/
def displayCodeOutput (outputElement : OutputRegion) (text : String) (success : Bool) :
    OutputRegion :=
  let lines := splitNewline text
  let html := lines.foldl (fun html line => html ++ outputLine success line) ""
  { innerHTML := html
    appended := []
    pending := if success then outputElement.pending ++ [successMsg] else outputElement.pending }

/-- `classList.add(name)`. -/
def classListAdd (classes : List String) (name : String) : List String :=
  if name ∈ classes then classes else classes ++ [name]

/-- `classList.remove(name)`. -/
def classListRemove (classes : List String) (name : String) : List String :=
  classes.filter (fun c => c ≠ name)

/-- `quizState.answers[id] = value` and `quizState.locked[id] = value`: the
property `id` of an object gets a value, the others keep theirs. -/
def setKey {α : Type} (object : Nat → α) (id : Nat) (value : α) : Nat → α :=
  fun key => if key = id then value else object key

/-- The object `quizState`: the recorded answer of each question, absent while
none was recorded, and the lock of each question. -/
structure QuizState where
  answers : Nat → Option String
  locked : Nat → Bool

/-- The object `quizState` as the script creates it when the page is loaded: no
answer is recorded and no question is locked. -/
def quizState : QuizState :=
  { answers := fun _ => none, locked := fun _ => false }

/-- An element `.option` of a question: its class list, the value and the state
of its radio input, and the text of its `span`. -/
structure OptionEl where
  classes : List String
  value : String
  checked : Bool
  disabled : Bool
  text : String
deriving DecidableEq, Repr

/-- The `textarea.short-answer` of a question. -/
structure TextArea where
  value : String
  disabled : Bool
deriving DecidableEq, Repr

/-- The button `.submit-answer` of a question. -/
structure SubmitBtn where
  disabled : Bool
  opacity : String
  cursor : String
deriving DecidableEq, Repr

/-- The region `.answer-feedback` of a question: its `style.display`, its class
list, the markup inside its `.explanation` paragraph when it has one, and its
own markup. -/
structure Feedback where
  display : String
  classes : List String
  explanation : Option String
  innerHTML : String
deriving DecidableEq, Repr

/-- The element `[data-question="<id>"]`: its options in document order, its text
area when it has one, its submit button and its feedback region. -/
structure QuestionDiv where
  options : List OptionEl
  textarea : Option TextArea
  submitBtn : SubmitBtn
  feedback : Feedback
deriving DecidableEq, Repr

/-- The state that the quiz functions read and write: `quizState`, and for each
identifier the first element of the document with that `data-question`. -/
structure Page where
  quizState : QuizState
  questions : Nat → Option QuestionDiv

/-- What a call of a quiz function leaves: the page, the text of the `alert` it
showed, and whether it ended by a `TypeError` on a missing element. -/
structure Outcome where
  page : Page
  alert : Option String
  threw : Bool

/-- The `options.forEach` callback of `submitAnswer`. -/
def markOption (correctAnswer userAnswer : String) (option : OptionEl) : OptionEl :=
  let option := { option with disabled := true, classes := classListAdd option.classes "disabled" }
  if option.value = correctAnswer then
    { option with classes := classListAdd option.classes "correct" }
  else if option.value = userAnswer ∧ userAnswer ≠ correctAnswer then
    { option with classes := classListAdd option.classes "incorrect" }
  else option

/-- The state in which `submitAnswer` and `submitShortAnswer` leave the submit
button. -/
def disabledBtn : SubmitBtn :=
  { disabled := true, opacity := "0.5", cursor := "not-allowed" }

/-- The part of `submitAnswer` from `feedback.style.display = 'block'` on: the
feedback region after it, and whether it ended by a `TypeError` because the
explanation paragraph or the input of the correct answer is missing. The
selector `input[value="<correctAnswer>"]` is taken to select the first radio
input whose value is `correctAnswer`. -/
def showFeedback (correctAnswer userAnswer : String) (options : List OptionEl)
    (feedback : Feedback) : Feedback × Bool :=
  let feedback := { feedback with display := "block" }
  if userAnswer = correctAnswer then
    let feedback := { feedback with classes := classListAdd feedback.classes "correct" }
    match feedback.explanation with
    | none => (feedback, true)
    | some explanation =>
      ({ feedback with
          innerHTML := "\n            <p class=\"correct-answer\">âœ“ Correct!</p>\n            <p class=\"explanation\">"
            ++ explanation ++ "</p>\n        " }, false)
  else
    let feedback := { feedback with classes := classListAdd feedback.classes "incorrect" }
    match options.find? (fun o => o.value = correctAnswer) with
    | none => (feedback, true)
    | some correctOption =>
      let correctText := correctOption.text
      match feedback.explanation with
      | none => (feedback, true)
      | some explanation =>
        ({ feedback with
            innerHTML := "\n            <p style=\"color: var(--danger-color); font-weight: 600;\">âœ— Incorrect</p>\n            <p class=\"correct-answer\">Correct Answer: "
              ++ correctText ++ "</p>\n            <p class=\"explanation\">"
              ++ explanation ++ "</p>\n        " }, false)

/-- `submitAnswer(questionId, correctAnswer)`. -/
def submitAnswer (page : Page) (questionId : Nat) (correctAnswer : String) : Outcome :=
  match page.questions questionId with
  | none => { page := page, alert := none, threw := true }
  | some questionDiv =>
    let selectedRadio := questionDiv.options.find? (fun o => o.checked)
    if page.quizState.locked questionId then
      { page := page, alert := none, threw := false }
    else
      match selectedRadio with
      | none =>
        { page := page, alert := some "Please select an answer before submitting.",
          threw := false }
      | some radio =>
        let userAnswer := radio.value
        let quizState : QuizState :=
          { locked := setKey page.quizState.locked questionId true
            answers := setKey page.quizState.answers questionId (some userAnswer) }
        let options := questionDiv.options.map (markOption correctAnswer userAnswer)
        let shown := showFeedback correctAnswer userAnswer options questionDiv.feedback
        { page :=
            { quizState := quizState
              questions := setKey page.questions questionId
                (some { questionDiv with
                  options := options, submitBtn := disabledBtn, feedback := shown.1 }) }
          alert := none
          threw := shown.2 }

/-- `submitShortAnswer(questionId)`. -/
def submitShortAnswer (page : Page) (questionId : Nat) : Outcome :=
  match page.questions questionId with
  | none => { page := page, alert := none, threw := true }
  | some questionDiv =>
    if page.quizState.locked questionId then
      { page := page, alert := none, threw := false }
    else
      match questionDiv.textarea with
      | none => { page := page, alert := none, threw := true }
      | some textarea =>
        if trim textarea.value = "" then
          { page := page, alert := some "Please provide an answer before submitting.",
            threw := false }
        else
          let quizState : QuizState :=
            { locked := setKey page.quizState.locked questionId true
              answers := setKey page.quizState.answers questionId (some textarea.value) }
          let feedback : Feedback :=
            { questionDiv.feedback with
              display := "block"
              classes := classListAdd questionDiv.feedback.classes "correct"
              innerHTML := "<div>"
                ++ "\n        <p style=\"color: var(--primary-light); font-weight: 600; margin-bottom: 10px;\">Your Answer:</p>\n        <div style=\"background: var(--bg-tertiary); padding: 15px; border-radius: 6px; margin-bottom: 15px; border-left: 3px solid var(--primary-color);\">\n            "
                ++ escapeHtml textarea.value ++ "\n        </div>\n    "
                ++ "</div>" ++ questionDiv.feedback.innerHTML }
          { page :=
              { quizState := quizState
                questions := setKey page.questions questionId
                  (some { questionDiv with
                    textarea := some { textarea with disabled := true }
                    submitBtn := disabledBtn
                    feedback := feedback }) }
            alert := none
            threw := false }

/-- What happens on the page between two moments: a submit button calls
`submitAnswer` or `submitShortAnswer`, or the user or the browser changes the
question elements (an option is selected, a text is typed). -/
inductive Event where
  | submitAnswer (questionId : Nat) (correctAnswer : String)
  | submitShortAnswer (questionId : Nat)
  | edit (questions : Nat → Option QuestionDiv)

/-- The page after an event. -/
def step (page : Page) : Event → Page
  | Event.submitAnswer questionId correctAnswer =>
    (submitAnswer page questionId correctAnswer).page
  | Event.submitShortAnswer questionId => (submitShortAnswer page questionId).page
  | Event.edit questions => { page with questions := questions }

/-- The page after a sequence of events, the first of the list first. -/
def run (page : Page) (events : List Event) : Page :=
  events.foldl step page

/-- The option carries the mark `name` in its class list. -/
def marked (name : String) (option : OptionEl) : Bool :=
  decide (name ∈ option.classes)

/-! ## Navigation controller -/

/-- An element `.nav-tab`: its class list and its attribute `data-lecture`, absent
when the element has none. -/
structure NavTab where
  classes : List String
  dataLecture : Option String
deriving DecidableEq, Repr

/-- An element `.lecture-content`, a lecture panel: its `id`, its class list and
its `textContent`. -/
structure LectureContent where
  id : String
  classes : List String
  textContent : String
deriving DecidableEq, Repr

/-- The elements that the navigation reads and writes, each list in document
order. The elements with an `id` of the form `lecture-...` are taken to be the
lecture panels. -/
structure Nav where
  navTabs : List NavTab
  lectureContents : List LectureContent
deriving DecidableEq, Repr

/-- What a click on a tab leaves: the elements, and whether the handler ended by a
`TypeError` because no element has the identifier of the panel. -/
structure NavOutcome where
  nav : Nav
  threw : Bool
deriving DecidableEq, Repr

/-- The tab carries the class `active`. -/
def tabActive (t : NavTab) : Bool :=
  decide ("active" ∈ t.classes)

/-- The panel carries the class `active`. -/
def panelActive (c : LectureContent) : Bool :=
  decide ("active" ∈ c.classes)

/-- The identifier that the click handler of a tab looks up. -/
def panelId (tab : NavTab) : String :=
  "lecture-" ++ tab.dataLecture.getD "null"

/-- The click handler that `initializeNavigation` gives to each tab, for a click on
the tab at position `k` of the tabs. -/
def clickTab (nav : Nav) (k : Nat) : NavOutcome :=
  match nav.navTabs[k]? with
  | none => { nav := nav, threw := false }
  | some this =>
    let navTabs := nav.navTabs.map
      (fun t => { t with classes := classListRemove t.classes "active" })
    let lectureContents := nav.lectureContents.map
      (fun c => { c with classes := classListRemove c.classes "active" })
    let navTabs := navTabs.modify
      (fun t => { t with classes := classListAdd t.classes "active" }) k
    match lectureContents.findIdx? (fun c => c.id = panelId this) with
    | none => { nav := { navTabs := navTabs, lectureContents := lectureContents }, threw := true }
    | some j =>
      { nav :=
          { navTabs := navTabs
            lectureContents := lectureContents.modify
              (fun c => { c with classes := classListAdd c.classes "active" }) j }
        threw := false }

/-- The fields of a keyboard event that the navigation shortcut reads. -/
structure KeyEvent where
  altKey : Bool
  key : String
deriving DecidableEq, Repr

/-- The part of the `keydown` listener for Alt and an arrow key. -/
def keydown (nav : Nav) (e : KeyEvent) : Nav :=
  if e.altKey ∧ (e.key = "ArrowLeft" ∨ e.key = "ArrowRight") then
    let allTabs := nav.navTabs
    let currentIndex : Int :=
      match allTabs.findIdx? tabActive with
      | some i => (i : Int)
      | none => -1
    if e.key = "ArrowRight" ∧ currentIndex < (allTabs.length : Int) - 1 then
      (clickTab nav (currentIndex + 1).toNat).nav
    else if e.key = "ArrowLeft" ∧ currentIndex > 0 then
      (clickTab nav (currentIndex - 1).toNat).nav
    else nav
  else nav

/-- Alt and the right arrow. -/
def altRight : KeyEvent := { altKey := true, key := "ArrowRight" }

/-- Alt and the left arrow. -/
def altLeft : KeyEvent := { altKey := true, key := "ArrowLeft" }

/-- The tab at position `k` is the one tab that carries `active`. -/
def OnlyActiveTab (nav : Nav) (k : Nat) : Prop :=
  k < nav.navTabs.length
    ∧ ∀ i t, nav.navTabs[i]? = some t → (tabActive t = true ↔ i = k)

/-- The panel at position `j` is the one panel that carries `active`. -/
def OnlyActivePanel (nav : Nav) (j : Nat) : Prop :=
  j < nav.lectureContents.length
    ∧ ∀ i c, nav.lectureContents[i]? = some c → (panelActive c = true ↔ i = j)

/-- A page with three tabs, of which the first is active, and the panels
`lecture-1` and `lecture-2`; no panel has the identifier `lecture-3`. -/
def sampleNav : Nav :=
  { navTabs :=
      [{ classes := ["nav-tab", "active"], dataLecture := some "1" },
       { classes := ["nav-tab"], dataLecture := some "2" },
       { classes := ["nav-tab"], dataLecture := some "3" }]
    lectureContents :=
      [{ id := "lecture-1", classes := ["lecture-content", "active"],
         textContent := "Arrays and Linked Lists" },
       { id := "lecture-2", classes := ["lecture-content"],
         textContent := "Stacks and Queues" }] }

/-! ## Search -/

/-- The event is a submission for the question `questionId` that passes both
guards of its function: the question is not locked, and an option is selected or
the text is not blank. -/
def Accepted (page : Page) (questionId : Nat) : Event → Prop
  | Event.submitAnswer id _ =>
    id = questionId ∧ page.quizState.locked id = false
      ∧ ∃ questionDiv radio, page.questions id = some questionDiv
        ∧ questionDiv.options.find? (fun o => o.checked) = some radio
  | Event.submitShortAnswer id =>
    id = questionId ∧ page.quizState.locked id = false
      ∧ ∃ questionDiv textarea, page.questions id = some questionDiv
        ∧ questionDiv.textarea = some textarea ∧ trim textarea.value ≠ ""
  | Event.edit _ => False

/-- A multiple-choice question with the options `a`, `b` and `c`, of which `a` is
selected. -/
def sampleQuestion : QuestionDiv :=
  { options :=
      [{ classes := ["option", "selected"], value := "a", checked := true, disabled := false,
         text := "A) Stack" },
       { classes := ["option"], value := "b", checked := false, disabled := false,
         text := "B) Queue" },
       { classes := ["option"], value := "c", checked := false, disabled := false,
         text := "C) Tree" }]
    textarea := none
    submitBtn := { disabled := false, opacity := "", cursor := "" }
    feedback :=
      { display := "none", classes := ["answer-feedback"], explanation := some "A stack is LIFO.",
        innerHTML := "<p class=\"explanation\">A stack is LIFO.</p>" } }

/-- A short-answer question whose text area holds `text`. -/
def sampleShortQuestion (text : String) : QuestionDiv :=
  { options := []
    textarea := some { value := text, disabled := false }
    submitBtn := { disabled := false, opacity := "", cursor := "" }
    feedback :=
      { display := "none", classes := ["answer-feedback"], explanation := none,
        innerHTML := "<p class=\"model-answer\"><strong>Model Answer:</strong></p><p>LIFO</p>" } }

/-- A freshly loaded page with `sampleQuestion` as question 1 and a short-answer
question, its text area holding `text`, as question 2. -/
def samplePage (text : String) : Page :=
  { quizState := quizState
    questions := fun id =>
      if id = 1 then some sampleQuestion
      else if id = 2 then some (sampleShortQuestion text)
      else none }

/-- The rows of a region's markup, one after the other. -/
def concatRows : List String → String
  | [] => ""
  | row :: rows => row ++ concatRows rows

/-- Every `&` of the list is followed by the rest of a character reference. -/
def AmpersandsStartEntities (l : List Char) : Prop :=
  ∀ pre post, l = pre ++ '&' :: post → ∃ t ∈ entityTails, ∃ rest, post = t ++ rest

/-! ## Theorems: the escaping utility -/

theorem decodeEntities_cons_of_ne (c : Char) (cs : List Char) (h : c ≠ '&') :
    decodeEntities (c :: cs) = c :: decodeEntities cs := by
  rw [decodeEntities]
  · intro _ h1; exact absurd h1 h
  · intro _ h1; exact absurd h1 h
  · intro _ h1; exact absurd h1 h
  · intro _ h1; exact absurd h1 h

theorem decodeEntities_escapeChars (cs : List Char) :
    decodeEntities (escapeChars cs) = cs := by
  induction cs with
  | nil => simp [escapeChars, decodeEntities]
  | cons c cs ih =>
    simp only [escapeChars, escapeChar]
    split
    · next h => subst h; simp [decodeEntities, ih]
    · split
      · next h => subst h; simp [decodeEntities, ih]
      · split
        · next h => subst h; simp [decodeEntities, ih]
        · split
          · next h => subst h; simp [decodeEntities, ih]
          · next h1 _ _ _ =>
            simp only [List.singleton_append]
            rw [decodeEntities_cons_of_ne c _ h1, ih]

theorem escapeChars_no_angle (cs : List Char) :
    ∀ c ∈ escapeChars cs, c ≠ '<' ∧ c ≠ '>' := by
  induction cs with
  | nil => simp [escapeChars]
  | cons d cs ih =>
    intro c hc
    simp only [escapeChars, List.mem_append] at hc
    rcases hc with hc | hc
    · unfold escapeChar at hc
      split at hc
      · simp at hc; rcases hc with rfl | rfl | rfl | rfl | rfl <;> decide
      · split at hc
        · simp at hc; rcases hc with rfl | rfl | rfl | rfl | rfl | rfl <;> decide
        · split at hc
          · simp at hc; rcases hc with rfl | rfl | rfl | rfl <;> decide
          · split at hc
            · simp at hc; rcases hc with rfl | rfl | rfl | rfl <;> decide
            · simp at hc; subst hc; constructor <;> assumption
    · exact ih c hc


theorem ampersands_cons_of_ne (c : Char) (l : List Char) (hc : c ≠ '&')
    (hl : AmpersandsStartEntities l) : AmpersandsStartEntities (c :: l) := by
  intro pre post h
  cases pre with
  | nil =>
    simp only [List.nil_append, List.cons.injEq] at h
    exact absurd h.1 hc
  | cons p pre =>
    simp only [List.cons_append, List.cons.injEq] at h
    exact hl pre post h.2

theorem ampersands_append_of_ne (t l : List Char) (ht : ∀ c ∈ t, c ≠ '&')
    (hl : AmpersandsStartEntities l) : AmpersandsStartEntities (t ++ l) := by
  induction t with
  | nil => simpa using hl
  | cons c t ih =>
    rw [List.cons_append]
    exact ampersands_cons_of_ne c _ (ht c (List.mem_cons_self _ _))
      (ih (fun d hd => ht d (List.mem_cons_of_mem _ hd)))

theorem ampersands_entity (t l : List Char) (ht : t ∈ entityTails)
    (hl : AmpersandsStartEntities l) : AmpersandsStartEntities ('&' :: (t ++ l)) := by
  have hne : ∀ c ∈ t, c ≠ '&' := by
    simp only [entityTails, List.mem_cons, List.mem_singleton, List.not_mem_nil, or_false] at ht
    rcases ht with rfl | rfl | rfl | rfl <;> decide
  intro pre post h
  cases pre with
  | nil =>
    simp only [List.nil_append, List.cons.injEq, true_and] at h
    exact ⟨t, ht, l, h.symm⟩
  | cons p pre =>
    simp only [List.cons_append, List.cons.injEq] at h
    exact ampersands_append_of_ne t l hne hl pre post h.2

theorem escapeChars_ampersands (cs : List Char) : AmpersandsStartEntities (escapeChars cs) := by
  induction cs with
  | nil =>
    intro pre post h
    simp [escapeChars] at h
  | cons c cs ih =>
    simp only [escapeChars, escapeChar]
    split
    · exact ampersands_entity ['a', 'm', 'p', ';'] _ (by simp [entityTails]) ih
    · split
      · exact ampersands_entity ['n', 'b', 's', 'p', ';'] _ (by simp [entityTails]) ih
      · split
        · exact ampersands_entity ['l', 't', ';'] _ (by simp [entityTails]) ih
        · split
          · exact ampersands_entity ['g', 't', ';'] _ (by simp [entityTails]) ih
          · next h1 _ _ _ => exact ampersands_cons_of_ne c _ h1 ih

/-- C7: `escapeHtml` is defined on every text, and for every text its result has
no `<` and no `>`, every `&` of its result starts one of the character
references `&amp;`, `&nbsp;`, `&lt;`, `&gt;`, and the text that a browser shows
for the result, its character references decoded, is the input. -/
theorem escapeHtml_neutralises_and_round_trips (text : String) :
    (∀ c ∈ (escapeHtml text).data, c ≠ '<' ∧ c ≠ '>')
    ∧ (∀ pre post, (escapeHtml text).data = pre ++ '&' :: post →
        ∃ t ∈ entityTails, ∃ rest, post = t ++ rest)
    ∧ renderedText (escapeHtml text) = text := by
  refine ⟨escapeChars_no_angle text.data, escapeChars_ampersands text.data, ?_⟩
  simp [renderedText, escapeHtml, decodeEntities_escapeChars]

/-! ## Theorems: the output renderer -/

theorem foldl_append_rows (f : String → String) (lines : List String) (init : String) :
    lines.foldl (fun html line => html ++ f line) init = init ++ concatRows (lines.map f) := by
  induction lines generalizing init with
  | nil => simp [concatRows]
  | cons l ls ih =>
    simp only [List.foldl_cons, List.map_cons, ih, concatRows, String.append_assoc]

theorem displayCodeOutput_innerHTML (r : OutputRegion) (text : String) (success : Bool) :
    (displayCodeOutput r text success).innerHTML
      = concatRows ((splitNewline text).map (outputLine success)) := by
  simp [displayCodeOutput, foldl_append_rows]

theorem splitNewlineChars_ne_nil (cs : List Char) : splitNewlineChars cs ≠ [] := by
  cases cs with
  | nil => simp [splitNewlineChars]
  | cons c cs =>
    simp only [splitNewlineChars]
    split
    · simp
    · split <;> simp

theorem splitNewlineChars_no_newline (l : List Char) (h : '\n' ∉ l) :
    splitNewlineChars l = [l] := by
  induction l with
  | nil => rfl
  | cons c cs ih =>
    simp only [List.mem_cons, not_or] at h
    have hc : c ≠ '\n' := fun e => h.1 e.symm
    simp [splitNewlineChars, hc, ih h.2]

theorem mem_classListAdd (classes : List String) (name x : String) :
    x ∈ classListAdd classes name ↔ x ∈ classes ∨ x = name := by
  unfold classListAdd
  split
  · constructor
    · intro h; exact Or.inl h
    · rintro (h | h)
      · exact h
      · subst h; assumption
  · simp

theorem markOption_value (correctAnswer userAnswer : String) (o : OptionEl) :
    (markOption correctAnswer userAnswer o).value = o.value := by
  unfold markOption
  simp only
  split
  · rfl
  · split <;> rfl

theorem marked_correct_markOption (correctAnswer userAnswer : String) (o : OptionEl)
    (h : marked "correct" o = false) :
    marked "correct" (markOption correctAnswer userAnswer o) = decide (o.value = correctAnswer) := by
  simp only [marked, decide_eq_false_iff_not] at h
  unfold markOption
  simp only
  split
  · next hv => simp [marked, mem_classListAdd, hv]
  · next hv =>
    split
    · simp [marked, mem_classListAdd, hv, h]
    · simp [marked, mem_classListAdd, hv, h]

theorem marked_incorrect_markOption (correctAnswer userAnswer : String) (o : OptionEl)
    (h : marked "incorrect" o = false) :
    marked "incorrect" (markOption correctAnswer userAnswer o)
      = decide (o.value = userAnswer ∧ userAnswer ≠ correctAnswer) := by
  simp only [marked, decide_eq_false_iff_not] at h
  unfold markOption
  simp only
  split
  · next hv =>
    have : ¬ (o.value = userAnswer ∧ userAnswer ≠ correctAnswer) := by
      rintro ⟨h1, h2⟩; exact h2 (h1 ▸ hv)
    simp [marked, mem_classListAdd, h, this]
  · next hv =>
    split
    · next hu => simp [marked, mem_classListAdd, hu]
    · next hu => simp [marked, mem_classListAdd, h, hu]

theorem countP_value_eq_one (options : List OptionEl) (v : String)
    (hnodup : (options.map OptionEl.value).Nodup) (hmem : v ∈ options.map OptionEl.value) :
    options.countP (fun o => decide (o.value = v)) = 1 := by
  have h1 : (options.map OptionEl.value).count v = 1 := List.count_eq_one_of_mem hnodup hmem
  rw [List.count, List.countP_map] at h1
  rw [← h1]
  apply List.countP_congr
  intro o _
  simp [Function.comp]

theorem countP_markOption_correct (correctAnswer userAnswer : String) (options : List OptionEl)
    (hfresh : ∀ o ∈ options, marked "correct" o = false) :
    (options.map (markOption correctAnswer userAnswer)).countP (marked "correct")
      = options.countP (fun o => decide (o.value = correctAnswer)) := by
  rw [List.countP_map]
  apply List.countP_congr
  intro o ho
  simp [Function.comp, marked_correct_markOption _ _ o (hfresh o ho)]

theorem countP_markOption_incorrect (correctAnswer userAnswer : String)
    (options : List OptionEl) (hfresh : ∀ o ∈ options, marked "incorrect" o = false) :
    (options.map (markOption correctAnswer userAnswer)).countP (marked "incorrect")
      = options.countP (fun o => decide (o.value = userAnswer ∧ userAnswer ≠ correctAnswer)) := by
  rw [List.countP_map]
  apply List.countP_congr
  intro o ho
  simp [Function.comp, marked_incorrect_markOption _ _ o (hfresh o ho)]

/-- The options of the question after an accepted call of `submitAnswer`. -/
theorem submitAnswer_options (page : Page) (questionId : Nat) (correctAnswer : String)
    (questionDiv : QuestionDiv) (radio : OptionEl)
    (hq : page.questions questionId = some questionDiv)
    (hunlocked : page.quizState.locked questionId = false)
    (hsel : questionDiv.options.find? (fun o => o.checked) = some radio) :
    ∃ after, (submitAnswer page questionId correctAnswer).page.questions questionId = some after
      ∧ after.options = questionDiv.options.map (markOption correctAnswer radio.value) := by
  simp [submitAnswer, hq, hunlocked, hsel, setKey]

/-- C1, as stated, fails: on the unlocked question with the options `a`, `b`, `c`,
of which `a` is selected, `submitAnswer(1, 'd')` marks no option `correct`, and
marks the selected option `incorrect`. -/
theorem submitAnswer_absent_correct_marks_none :
    (samplePage "").quizState.locked 1 = false
    ∧ (samplePage "").questions 1 = some sampleQuestion
    ∧ (sampleQuestion.options.find? (fun o => o.checked)).map OptionEl.value = some "a"
    ∧ ((submitAnswer (samplePage "") 1 "d").page.questions 1).map
        (fun q => q.options.countP (marked "correct")) = some 0
    ∧ ((submitAnswer (samplePage "") 1 "d").page.questions 1).map
        (fun q => q.options.countP (marked "incorrect")) = some 1 := by
  decide

/-- C1, amended: for a multiple-choice question that is not locked, whose options
have pairwise different values and carry no mark `correct` or `incorrect`, and for
a `correctAnswer` that is the value of one of its options: after
`submitAnswer(questionId, correctAnswer)` exactly one option is marked `correct`,
the one with the value `correctAnswer`; when the selected value is
`correctAnswer` none is marked `incorrect`; when it differs exactly one is marked
`incorrect`, the one with the selected value, which is another option. -/
theorem submitAnswer_marks_correct_and_incorrect (page : Page) (questionId : Nat)
    (correctAnswer : String) (questionDiv : QuestionDiv) (radio : OptionEl)
    (hq : page.questions questionId = some questionDiv)
    (hunlocked : page.quizState.locked questionId = false)
    (hsel : questionDiv.options.find? (fun o => o.checked) = some radio)
    (hvalues : (questionDiv.options.map OptionEl.value).Nodup)
    (hcorrect : correctAnswer ∈ questionDiv.options.map OptionEl.value)
    (hfresh : ∀ o ∈ questionDiv.options,
      marked "correct" o = false ∧ marked "incorrect" o = false) :
    ∃ after, (submitAnswer page questionId correctAnswer).page.questions questionId = some after
      ∧ after.options.map OptionEl.value = questionDiv.options.map OptionEl.value
      ∧ after.options.countP (marked "correct") = 1
      ∧ (∀ o ∈ after.options, marked "correct" o = true ↔ o.value = correctAnswer)
      ∧ (radio.value = correctAnswer → after.options.countP (marked "incorrect") = 0)
      ∧ (radio.value ≠ correctAnswer →
          after.options.countP (marked "incorrect") = 1
          ∧ (∀ o ∈ after.options, marked "incorrect" o = true ↔ o.value = radio.value)
          ∧ ∀ o ∈ after.options, ¬ (marked "correct" o = true ∧ marked "incorrect" o = true)) := by
  obtain ⟨after, hafter, hopts⟩ :=
    submitAnswer_options page questionId correctAnswer questionDiv radio hq hunlocked hsel
  have hradio : radio.value ∈ questionDiv.options.map OptionEl.value :=
    List.mem_map_of_mem _ (List.mem_of_find?_eq_some hsel)
  have hc : ∀ o ∈ after.options, marked "correct" o = true ↔ o.value = correctAnswer := by
    intro o ho
    rw [hopts, List.mem_map] at ho
    obtain ⟨o0, ho0, rfl⟩ := ho
    rw [marked_correct_markOption _ _ o0 (hfresh o0 ho0).1, markOption_value]
    simp
  have hi : ∀ o ∈ after.options,
      marked "incorrect" o = true ↔ (o.value = radio.value ∧ radio.value ≠ correctAnswer) := by
    intro o ho
    rw [hopts, List.mem_map] at ho
    obtain ⟨o0, ho0, rfl⟩ := ho
    rw [marked_incorrect_markOption _ _ o0 (hfresh o0 ho0).2, markOption_value]
    simp
  refine ⟨after, hafter, ?_, ?_, hc, ?_, ?_⟩
  · rw [hopts, List.map_map]
    apply List.map_congr_left
    intro o _
    exact markOption_value _ _ o
  · rw [hopts, countP_markOption_correct _ _ _ (fun o ho => (hfresh o ho).1)]
    exact countP_value_eq_one _ _ hvalues hcorrect
  · intro heq
    rw [hopts, countP_markOption_incorrect _ _ _ (fun o ho => (hfresh o ho).2)]
    rw [List.countP_eq_zero]
    intro o _
    simp [heq]
  · intro hne
    refine ⟨?_, ?_, ?_⟩
    · rw [hopts, countP_markOption_incorrect _ _ _ (fun o ho => (hfresh o ho).2)]
      rw [← countP_value_eq_one _ _ hvalues hradio]
      apply List.countP_congr
      intro o _
      simp [hne]
    · intro o ho
      rw [hi o ho]
      simp [hne]
    · intro o ho h
      have h1 := (hc o ho).1 h.1
      have h2 := ((hi o ho).1 h.2).1
      exact hne (h2 ▸ h1)

/-- Witness of the amended C1: question 1 of the sample page, with `a` selected and
`b` the correct answer. -/
theorem submitAnswer_marks_correct_and_incorrect_witness :
    ∃ after, (submitAnswer (samplePage "") 1 "b").page.questions 1 = some after
      ∧ after.options.map OptionEl.value = sampleQuestion.options.map OptionEl.value
      ∧ after.options.countP (marked "correct") = 1
      ∧ (∀ o ∈ after.options, marked "correct" o = true ↔ o.value = "b")
      ∧ (("a" : String) = "b" → after.options.countP (marked "incorrect") = 0)
      ∧ (("a" : String) ≠ "b" →
          after.options.countP (marked "incorrect") = 1
          ∧ (∀ o ∈ after.options, marked "incorrect" o = true ↔ o.value = "a")
          ∧ ∀ o ∈ after.options, ¬ (marked "correct" o = true ∧ marked "incorrect" o = true)) :=
  submitAnswer_marks_correct_and_incorrect (samplePage "") 1 "b" sampleQuestion
    { classes := ["option", "selected"], value := "a", checked := true, disabled := false,
      text := "A) Stack" }
    rfl rfl rfl (by decide) (by decide) (by decide)

theorem submitAnswer_cases (page : Page) (questionId : Nat) (correctAnswer : String) :
    (submitAnswer page questionId correctAnswer).page = page
    ∨ (page.quizState.locked questionId = false
      ∧ ∃ userAnswer, (submitAnswer page questionId correctAnswer).page.quizState
          = { locked := setKey page.quizState.locked questionId true
              answers := setKey page.quizState.answers questionId (some userAnswer) }) := by
  unfold submitAnswer
  split
  · exact Or.inl rfl
  · simp only
    split
    · exact Or.inl rfl
    · next hl =>
      split
      · exact Or.inl rfl
      · next radio _ =>
        exact Or.inr ⟨by simpa using hl, radio.value, rfl⟩

theorem submitShortAnswer_cases (page : Page) (questionId : Nat) :
    (submitShortAnswer page questionId).page = page
    ∨ (page.quizState.locked questionId = false
      ∧ ∃ userAnswer, (submitShortAnswer page questionId).page.quizState
          = { locked := setKey page.quizState.locked questionId true
              answers := setKey page.quizState.answers questionId (some userAnswer) }) := by
  unfold submitShortAnswer
  split
  · exact Or.inl rfl
  · split
    · exact Or.inl rfl
    · next hl =>
      split
      · exact Or.inl rfl
      · next textarea _ =>
        split
        · exact Or.inl rfl
        · exact Or.inr ⟨by simpa using hl, textarea.value, rfl⟩

/-- An event changes `quizState` by at most one write: the lock and the answer of
one question that was not locked. -/
theorem step_cases (page : Page) (e : Event) :
    (step page e).quizState = page.quizState
    ∨ ∃ id userAnswer, page.quizState.locked id = false
        ∧ (step page e).quizState
          = { locked := setKey page.quizState.locked id true
              answers := setKey page.quizState.answers id (some userAnswer) } := by
  cases e with
  | submitAnswer id correctAnswer =>
    rcases submitAnswer_cases page id correctAnswer with h | ⟨h1, u, h2⟩
    · exact Or.inl (by simp [step, h])
    · exact Or.inr ⟨id, u, h1, h2⟩
  | submitShortAnswer id =>
    rcases submitShortAnswer_cases page id with h | ⟨h1, u, h2⟩
    · exact Or.inl (by simp [step, h])
    · exact Or.inr ⟨id, u, h1, h2⟩
  | edit questions => exact Or.inl rfl

theorem step_keeps_locked (page : Page) (e : Event) (questionId : Nat)
    (h : page.quizState.locked questionId = true) :
    (step page e).quizState.locked questionId = true
    ∧ (step page e).quizState.answers questionId = page.quizState.answers questionId := by
  rcases step_cases page e with h1 | ⟨id, u, h1, h2⟩
  · rw [h1]; exact ⟨h, rfl⟩
  · have hne : questionId ≠ id := by
      intro heq; subst heq; rw [h] at h1; exact absurd h1 (by decide)
    rw [h2]
    simp [setKey, hne, h]

theorem run_keeps_locked (events : List Event) (page : Page) (questionId : Nat)
    (h : page.quizState.locked questionId = true) :
    (run page events).quizState.locked questionId = true
    ∧ (run page events).quizState.answers questionId = page.quizState.answers questionId := by
  induction events generalizing page with
  | nil => exact ⟨h, rfl⟩
  | cons e es ih =>
    have hs := step_keeps_locked page e questionId h
    have := ih (step page e) hs.1
    simp only [run, List.foldl_cons] at this ⊢
    exact ⟨this.1, this.2.trans hs.2⟩

theorem submitAnswer_of_locked (page : Page) (questionId : Nat) (correctAnswer : String)
    (h : page.quizState.locked questionId = true) :
    (submitAnswer page questionId correctAnswer).page = page
    ∧ (submitAnswer page questionId correctAnswer).alert = none := by
  unfold submitAnswer
  split
  · exact ⟨rfl, rfl⟩
  · simp [h]

theorem submitShortAnswer_of_locked (page : Page) (questionId : Nat)
    (h : page.quizState.locked questionId = true) :
    (submitShortAnswer page questionId).page = page
    ∧ (submitShortAnswer page questionId).alert = none := by
  unfold submitShortAnswer
  split
  · exact ⟨rfl, rfl⟩
  · simp [h]

theorem step_of_accepted (page : Page) (questionId : Nat) (e : Event)
    (h : Accepted page questionId e) :
    (step page e).quizState.locked questionId = true
    ∧ ∃ answer, (step page e).quizState.answers questionId = some answer := by
  cases e with
  | submitAnswer id correctAnswer =>
    obtain ⟨rfl, hl, q, radio, hq, hsel⟩ := h
    simp [step, submitAnswer, hq, hl, hsel, setKey]
  | submitShortAnswer id =>
    obtain ⟨rfl, hl, q, textarea, hq, hta, htrim⟩ := h
    simp [step, submitShortAnswer, hq, hl, hta, htrim, setKey]
  | edit questions => exact absurd h (by simp [Accepted])

/-- C2: once a submission for a question was accepted by `submitAnswer` or
`submitShortAnswer`, then after any later events (submissions for any question,
with any correct answer, and changes of the selections and texts) the question is
still locked and its recorded answer is the one of the accepted submission, and a
call of `submitAnswer` or `submitShortAnswer` for it leaves the whole page (the
answers, the locks and the question elements) as it is and shows no prompt. -/
theorem submit_after_accepted_is_noop (page : Page) (questionId : Nat) (first : Event)
    (haccepted : Accepted page questionId first) (later : List Event) :
    (run (step page first) later).quizState.locked questionId = true
    ∧ (∃ answer, (step page first).quizState.answers questionId = some answer
        ∧ (run (step page first) later).quizState.answers questionId = some answer)
    ∧ (∀ correctAnswer,
        (submitAnswer (run (step page first) later) questionId correctAnswer).page
          = run (step page first) later
        ∧ (submitAnswer (run (step page first) later) questionId correctAnswer).alert = none)
    ∧ (submitShortAnswer (run (step page first) later) questionId).page
        = run (step page first) later
    ∧ (submitShortAnswer (run (step page first) later) questionId).alert = none := by
  obtain ⟨hl, answer, ha⟩ := step_of_accepted page questionId first haccepted
  obtain ⟨hl2, ha2⟩ := run_keeps_locked later (step page first) questionId hl
  refine ⟨hl2, ⟨answer, ha, ha2.trans ha⟩, ?_, ?_⟩
  · intro correctAnswer
    exact submitAnswer_of_locked _ _ _ hl2
  · exact submitShortAnswer_of_locked _ _ hl2

/-- Witness of C2: on the sample page the submission of `a` for question 1 is
accepted; later the text area of question 2 is filled and submitted, another
option of question 1 is selected and question 1 is submitted twice more. -/
theorem submit_after_accepted_is_noop_witness :
    (run (step (samplePage "") (Event.submitAnswer 1 "b"))
        [Event.submitAnswer 1 "a", Event.edit (samplePage "LIFO").questions,
          Event.submitShortAnswer 2, Event.submitShortAnswer 1]).quizState.locked 1 = true
    ∧ (run (step (samplePage "") (Event.submitAnswer 1 "b"))
        [Event.submitAnswer 1 "a", Event.edit (samplePage "LIFO").questions,
          Event.submitShortAnswer 2, Event.submitShortAnswer 1]).quizState.answers 1
        = some "a" :=
  have h := submit_after_accepted_is_noop (samplePage "") 1 (Event.submitAnswer 1 "b")
    ⟨rfl, rfl, sampleQuestion, _, rfl, rfl⟩
    [Event.submitAnswer 1 "a", Event.edit (samplePage "LIFO").questions,
      Event.submitShortAnswer 2, Event.submitShortAnswer 1]
  ⟨h.1, by
    obtain ⟨answer, h1, h2⟩ := h.2.1
    have h3 : (step (samplePage "") (Event.submitAnswer 1 "b")).quizState.answers 1
        = some "a" := by decide
    rw [h2, ← h1, h3]⟩

/-- C3: in every state reached from a freshly loaded page by submissions and by
changes of the question elements, a question is locked if and only if an answer
is recorded for it. -/
theorem locked_iff_answer_recorded (questions : Nat → Option QuestionDiv)
    (events : List Event) (questionId : Nat) :
    (run { quizState := quizState, questions := questions } events).quizState.locked
        questionId = true
      ↔ (run { quizState := quizState, questions := questions }
          events).quizState.answers questionId ≠ none := by
  have key : ∀ (events : List Event) (page : Page),
      (∀ id, page.quizState.locked id = true ↔ page.quizState.answers id ≠ none) →
      ∀ id, (run page events).quizState.locked id = true
        ↔ (run page events).quizState.answers id ≠ none := by
    intro events
    induction events with
    | nil => intro page h; exact h
    | cons e es ih =>
      intro page h
      simp only [run, List.foldl_cons]
      apply ih
      intro id
      rcases step_cases page e with h1 | ⟨id1, u, _, h2⟩
      · rw [h1]; exact h id
      · rw [h2]
        by_cases hid : id = id1
        · simp [setKey, hid]
        · simp [setKey, hid, h id]
  exact key events _ (by intro id; simp [quizState]) questionId

theorem trimChars_of_all (cs : List Char) (h : ∀ c ∈ cs, isTrimChar c = true) :
    trimChars cs = [] := by
  have : cs.dropWhile isTrimChar = [] := by
    rw [List.dropWhile_eq_nil_iff]
    exact h
  simp [trimChars, this]

/-- C4: on a question that is not locked, `submitShortAnswer` with a text that is
empty or consists of white space and line ends only, and `submitAnswer` with no
option selected, each show their prompt and leave the page, with the locks and
the answers of all questions, as it is. -/
theorem blank_submission_prompts_and_keeps_state (page : Page) (questionId : Nat)
    (questionDiv : QuestionDiv)
    (hq : page.questions questionId = some questionDiv)
    (hunlocked : page.quizState.locked questionId = false) :
    (∀ textarea, questionDiv.textarea = some textarea →
      (∀ c ∈ textarea.value.data, isTrimChar c = true) →
        (submitShortAnswer page questionId).alert
            = some "Please provide an answer before submitting."
          ∧ (submitShortAnswer page questionId).page = page)
    ∧ (∀ correctAnswer, (∀ o ∈ questionDiv.options, o.checked = false) →
        (submitAnswer page questionId correctAnswer).alert
            = some "Please select an answer before submitting."
          ∧ (submitAnswer page questionId correctAnswer).page = page) := by
  constructor
  · intro textarea hta hblank
    have : trim textarea.value = "" := by
      simp only [trim, trimChars_of_all _ hblank]
    simp [submitShortAnswer, hq, hunlocked, hta, this]
  · intro correctAnswer hnone
    have : questionDiv.options.find? (fun o => o.checked) = none := by
      rw [List.find?_eq_none]
      intro o ho
      simp [hnone o ho]
    simp [submitAnswer, hq, hunlocked, this]

/-- Witness of C4: question 2 of the sample page with the text of a blank and a
line end. -/
theorem blank_submission_prompts_and_keeps_state_witness :
    (submitShortAnswer (samplePage " \n") 2).alert
        = some "Please provide an answer before submitting."
      ∧ (submitShortAnswer (samplePage " \n") 2).page = samplePage " \n" :=
  (blank_submission_prompts_and_keeps_state (samplePage " \n") 2 (sampleShortQuestion " \n")
    rfl rfl).1 { value := " \n", disabled := false } rfl (by decide)

/-! ## Theorems: the navigation controller -/

theorem not_mem_classListRemove (classes : List String) (name : String) :
    name ∉ classListRemove classes name := by
  simp [classListRemove]

theorem only_at_of_map_modify {α : Type} (p : α → Bool) (f g : α → α)
    (hoff : ∀ x, p (f x) = false) (hon : ∀ x, p (g x) = true)
    (l : List α) (k i : Nat) (t : α) (h : ((l.map f).modify g k)[i]? = some t) :
    p t = true ↔ i = k := by
  rw [List.getElem?_modify, List.getElem?_map] at h
  cases hl : l[i]? with
  | none => simp [hl] at h
  | some x =>
    simp only [hl, Option.map_some', Option.map_eq_map, Option.some.injEq] at h
    by_cases hk : k = i
    · subst hk
      simp only [if_true] at h
      subst h
      simp [hon]
    · simp only [if_neg hk] at h
      subst h
      simp [hoff, Ne.symm hk]

theorem countP_eq_one_of_only_at {α : Type} (p : α → Bool) (l : List α) (k : Nat)
    (hk : k < l.length) (h : ∀ i t, l[i]? = some t → (p t = true ↔ i = k)) :
    l.countP p = 1 := by
  induction l generalizing k with
  | nil => simp at hk
  | cons x xs ih =>
    cases k with
    | zero =>
      have hx : p x = true := (h 0 x (by simp)).2 rfl
      have hxs : xs.countP p = 0 := by
        rw [List.countP_eq_zero]
        intro a ha
        obtain ⟨i, hi, rfl⟩ := List.getElem_of_mem ha
        have := h (i + 1) xs[i] (by simp [hi])
        simp at this
        simp [this]
      simp [List.countP_cons, hx, hxs]
    | succ k =>
      have hx : p x = false := by
        have := h 0 x (by simp)
        simp at this
        simp [this]
      have := ih k (by simpa using hk) (fun i t hi => by
        have := h (i + 1) t (by simpa using hi)
        simpa using this)
      simp [List.countP_cons, hx, this]

theorem tabActive_remove (t : NavTab) :
    tabActive { t with classes := classListRemove t.classes "active" } = false := by
  simp [tabActive, not_mem_classListRemove]

theorem tabActive_add (t : NavTab) :
    tabActive { t with classes := classListAdd t.classes "active" } = true := by
  simp [tabActive, mem_classListAdd]

theorem panelActive_remove (c : LectureContent) :
    panelActive { c with classes := classListRemove c.classes "active" } = false := by
  simp [panelActive, not_mem_classListRemove]

theorem panelActive_add (c : LectureContent) :
    panelActive { c with classes := classListAdd c.classes "active" } = true := by
  simp [panelActive, mem_classListAdd]

/-- The tabs after a click on the tab at position `k`. -/
theorem clickTab_navTabs (nav : Nav) (k : Nat) (this : NavTab)
    (hk : nav.navTabs[k]? = some this) :
    (clickTab nav k).nav.navTabs
      = (nav.navTabs.map (fun t => { t with classes := classListRemove t.classes "active" })).modify
          (fun t => { t with classes := classListAdd t.classes "active" }) k := by
  simp only [clickTab, hk]
  split <;> rfl

theorem clickTab_onlyActiveTab (nav : Nav) (k : Nat) (this : NavTab)
    (hk : nav.navTabs[k]? = some this) :
    OnlyActiveTab (clickTab nav k).nav k := by
  have hlt : k < nav.navTabs.length := by
    rcases Nat.lt_or_ge k nav.navTabs.length with h | h
    · exact h
    · rw [List.getElem?_eq_none h] at hk; exact absurd hk (by simp)
  rw [OnlyActiveTab, clickTab_navTabs nav k this hk]
  refine ⟨by simpa using hlt, ?_⟩
  intro i t hi
  exact only_at_of_map_modify tabActive _ _ tabActive_remove tabActive_add _ k i t hi

theorem findIdx?_of_onlyActiveTab (nav : Nav) (k : Nat) (h : OnlyActiveTab nav k) :
    nav.navTabs.findIdx? tabActive = some k := by
  rw [List.findIdx?_eq_some_iff_getElem]
  refine ⟨h.1, ?_, ?_⟩
  · exact (h.2 k _ (List.getElem?_eq_getElem h.1)).2 rfl
  · intro j hj
    have hjl : j < nav.navTabs.length := Nat.lt_trans hj h.1
    have := h.2 j _ (List.getElem?_eq_getElem hjl)
    intro hact
    have := this.1 hact
    omega

theorem keydown_altRight (nav : Nav) (i : Nat)
    (hactive : nav.navTabs.findIdx? tabActive = some i) :
    keydown nav altRight
      = if i + 1 < nav.navTabs.length then (clickTab nav (i + 1)).nav else nav := by
  simp only [keydown, altRight, hactive]
  have h1 : (((i : Int) + 1).toNat) = i + 1 := by omega
  by_cases h : i + 1 < nav.navTabs.length
  · have h2 : (i : Int) < (nav.navTabs.length : Int) - 1 := by omega
    simp [h, h2, h1]
  · have h2 : ¬ (i : Int) < (nav.navTabs.length : Int) - 1 := by omega
    simp [h, h2]

theorem keydown_altLeft (nav : Nav) (i : Nat)
    (hactive : nav.navTabs.findIdx? tabActive = some i) :
    keydown nav altLeft = if 0 < i then (clickTab nav (i - 1)).nav else nav := by
  simp only [keydown, altLeft, hactive]
  by_cases h : 0 < i
  · have h1 : (((i : Int) - 1).toNat) = i - 1 := by omega
    have h2 : (i : Int) > 0 := by omega
    simp [h, h2, h1]
  · have h2 : ¬ (i : Int) > 0 := by omega
    simp [h, h2]

theorem clickTab_navTabs_length (nav : Nav) (k : Nat) :
    (clickTab nav k).nav.navTabs.length = nav.navTabs.length := by
  cases hk : nav.navTabs[k]? with
  | none => simp [clickTab, hk]
  | some this => simp [clickTab_navTabs nav k this hk]

theorem getElem?_of_lt_navTabs (nav : Nav) (k : Nat) (hk : k < nav.navTabs.length) :
    nav.navTabs[k]? = some nav.navTabs[k] :=
  List.getElem?_eq_getElem hk

theorem keydown_altRight_of_lt (nav : Nav) (i : Nat)
    (hactive : nav.navTabs.findIdx? tabActive = some i) (h : i + 1 < nav.navTabs.length) :
    OnlyActiveTab (keydown nav altRight) (i + 1)
    ∧ (keydown nav altRight).navTabs.length = nav.navTabs.length := by
  rw [keydown_altRight nav i hactive, if_pos h]
  exact ⟨clickTab_onlyActiveTab nav (i + 1) _ (getElem?_of_lt_navTabs nav _ h),
    clickTab_navTabs_length nav (i + 1)⟩

theorem keydown_altRight_of_last (nav : Nav) (i : Nat)
    (hactive : nav.navTabs.findIdx? tabActive = some i) (h : ¬ i + 1 < nav.navTabs.length) :
    keydown nav altRight = nav := by
  rw [keydown_altRight nav i hactive, if_neg h]

/-- C8: when the active tab is at position `i` of `n` tabs (positions from 0), Alt
and the right arrow make the tab at `i + 1` the one active tab when `i + 1 < n`
and change nothing otherwise; Alt and the left arrow make the tab at `i - 1` the
one active tab when `0 < i` and change nothing otherwise. With three tabs and the
first one active, two presses of Alt and the right arrow make the third tab the
one active tab, and a third press changes nothing. -/
theorem keydown_moves_active_tab_clamped (nav : Nav) (i : Nat)
    (hactive : nav.navTabs.findIdx? tabActive = some i) :
    (i + 1 < nav.navTabs.length → OnlyActiveTab (keydown nav altRight) (i + 1))
    ∧ (¬ i + 1 < nav.navTabs.length → keydown nav altRight = nav)
    ∧ (0 < i → OnlyActiveTab (keydown nav altLeft) (i - 1))
    ∧ (i = 0 → keydown nav altLeft = nav)
    ∧ (nav.navTabs.length = 3 → i = 0 →
        OnlyActiveTab (keydown (keydown nav altRight) altRight) 2
        ∧ keydown (keydown (keydown nav altRight) altRight) altRight
          = keydown (keydown nav altRight) altRight) := by
  have hi : i < nav.navTabs.length := (List.findIdx?_eq_some_iff_getElem.1 hactive).1
  refine ⟨fun h => (keydown_altRight_of_lt nav i hactive h).1,
    keydown_altRight_of_last nav i hactive, ?_, ?_, ?_⟩
  · intro h
    rw [keydown_altLeft nav i hactive, if_pos h]
    exact clickTab_onlyActiveTab nav (i - 1) _ (getElem?_of_lt_navTabs nav _ (by omega))
  · intro h
    rw [keydown_altLeft nav i hactive, if_neg (by omega)]
  · intro hn h0
    subst h0
    obtain ⟨h1, hl1⟩ := keydown_altRight_of_lt nav 0 hactive (by omega)
    have ha1 := findIdx?_of_onlyActiveTab _ _ h1
    obtain ⟨h2, hl2⟩ := keydown_altRight_of_lt (keydown nav altRight) 1 ha1 (by omega)
    have ha2 := findIdx?_of_onlyActiveTab _ _ h2
    exact ⟨h2, keydown_altRight_of_last _ 2 ha2 (by omega)⟩

/-- Witness of C8: the sample page has three tabs, of which the first is
active. -/
theorem keydown_moves_active_tab_clamped_witness :
    OnlyActiveTab (keydown sampleNav altRight) 1
    ∧ keydown sampleNav altLeft = sampleNav
    ∧ OnlyActiveTab (keydown (keydown sampleNav altRight) altRight) 2
    ∧ keydown (keydown (keydown sampleNav altRight) altRight) altRight
        = keydown (keydown sampleNav altRight) altRight :=
  have h := keydown_moves_active_tab_clamped sampleNav 0 (by decide)
  ⟨h.1 (by decide), h.2.2.2.1 rfl, (h.2.2.2.2 rfl rfl).1, (h.2.2.2.2 rfl rfl).2⟩

/-- C9, as stated, fails: on the sample page, which has no panel `lecture-3`, a
click on the third tab leaves that tab as the one active tab and no panel
active; the handler ends by a `TypeError`. -/
theorem clickTab_without_panel_activates_none :
    sampleNav.navTabs[2]? = some { classes := ["nav-tab"], dataLecture := some "3" }
    ∧ (clickTab sampleNav 2).nav.navTabs.countP tabActive = 1
    ∧ (clickTab sampleNav 2).nav.lectureContents.countP panelActive = 0
    ∧ (clickTab sampleNav 2).threw = true := by
  decide

/-- C9, amended: after a click on a tab for which a lecture panel with the
identifier `lecture-<data-lecture>` exists, whatever tabs and panels were active
before, exactly one tab is active, the clicked one, and exactly one lecture panel
is active, the first panel with that identifier. -/
theorem clickTab_activates_one_tab_one_panel (nav : Nav) (k j : Nat) (this : NavTab)
    (hk : nav.navTabs[k]? = some this)
    (hj : nav.lectureContents.findIdx? (fun c => c.id = panelId this) = some j) :
    OnlyActiveTab (clickTab nav k).nav k
    ∧ (clickTab nav k).nav.navTabs.countP tabActive = 1
    ∧ OnlyActivePanel (clickTab nav k).nav j
    ∧ (clickTab nav k).nav.lectureContents.countP panelActive = 1
    ∧ ((clickTab nav k).nav.lectureContents[j]?).map LectureContent.id = some (panelId this)
    ∧ (clickTab nav k).threw = false := by
  have htab := clickTab_onlyActiveTab nav k this hk
  have hfind : (nav.lectureContents.map
      (fun c => { c with classes := classListRemove c.classes "active" })).findIdx?
        (fun c => decide (c.id = panelId this)) = some j := by
    rw [List.findIdx?_map]
    exact hj
  have hpanels : (clickTab nav k).nav.lectureContents
      = (nav.lectureContents.map
          (fun c => { c with classes := classListRemove c.classes "active" })).modify
            (fun c => { c with classes := classListAdd c.classes "active" }) j := by
    simp only [clickTab, hk, hfind]
  have hthrew : (clickTab nav k).threw = false := by
    simp only [clickTab, hk, hfind]
  obtain ⟨hjlt, hid, _⟩ := List.findIdx?_eq_some_iff_getElem.1 hj
  have hpanel : OnlyActivePanel (clickTab nav k).nav j := by
    rw [OnlyActivePanel, hpanels]
    refine ⟨by simpa using hjlt, ?_⟩
    intro i c hi
    exact only_at_of_map_modify panelActive _ _ panelActive_remove panelActive_add _ j i c hi
  refine ⟨htab, countP_eq_one_of_only_at _ _ k htab.1 htab.2, hpanel,
    countP_eq_one_of_only_at _ _ j hpanel.1 hpanel.2, ?_, hthrew⟩
  rw [hpanels, List.getElem?_modify_eq, List.getElem?_map, List.getElem?_eq_getElem hjlt]
  simpa using hid

/-- Witness of the amended C9: a click on the second tab of the sample page, whose
panel `lecture-2` is the second panel. -/
theorem clickTab_activates_one_tab_one_panel_witness :
    OnlyActiveTab (clickTab sampleNav 1).nav 1
    ∧ (clickTab sampleNav 1).nav.navTabs.countP tabActive = 1
    ∧ OnlyActivePanel (clickTab sampleNav 1).nav 1
    ∧ (clickTab sampleNav 1).nav.lectureContents.countP panelActive = 1
    ∧ ((clickTab sampleNav 1).nav.lectureContents[1]?).map LectureContent.id
        = some (panelId { classes := ["nav-tab"], dataLecture := some "2" })
    ∧ (clickTab sampleNav 1).threw = false :=
  clickTab_activates_one_tab_one_panel sampleNav 1 1
    { classes := ["nav-tab"], dataLecture := some "2" } (by decide) (by decide)

/-! ## Theorems: the search -/

end DssReview
